import Mathlib

/-!
Shallow embedding of the turn-based strategy agent (`task_5/agent.py`):
the role scheduler, the three role behaviors (explore / attack / defend),
the spatial helpers, and the `get_action` turn controller.

Modelling conventions:
* Python ints are `Int` (ship fields, coordinates) or `Nat` (map cells,
  turn counter, counts); `int(n * 1.0)`, `int(n * 0.5)` are exact for the
  sizes that occur and are embedded as `n * 1` and `n / 2`.
* Python dicts keyed by ship id are association lists with replace-on-set
  semantics (`alSet`), matching dict update; lookups scan from the front.
  The per-tick `allied_ships_dict` is built by successive assignment, so a
  duplicated id resolves to the LAST matching ship (`lookupShip`).
* The global `random` source is an explicit stream `rng : List Nat`,
  consumed from the head; `random.choice([a,b])` reads `head % 2`,
  `random.randint(0,3)` reads `head % 4`.
* A `None` dereference (unset anchor) or missing dict key is `Option.none`
  propagated to the caller; total code returns `some`.
-/

inductive Role where
  | explore
  | attack
  | defend
deriving DecidableEq, Repr

structure Ship where
  sid : Int
  x : Int
  y : Int
  hp : Int
  fireCd : Int
  moveCd : Int
deriving DecidableEq, Repr

structure Obs where
  map : List (List Nat)
  allied_ships : List Ship
  enemy_ships : List Ship
  planets_occupation : List (Int × Int × Int)
  resources : Int
deriving Repr

/-- Association-list lookup (Python dict read). -/
def alLookup {α : Type} (m : List (Int × α)) (k : Int) : Option α :=
  match m with
  | [] => none
  | (k1, v) :: rest => if k1 = k then some v else alLookup rest k

/-- Association-list write with dict semantics: replace in place if the key
exists, else append (Python dict insertion order). -/
def alSet {α : Type} (m : List (Int × α)) (k : Int) (v : α) : List (Int × α) :=
  match m with
  | [] => [(k, v)]
  | (k1, v1) :: rest => if k1 = k then (k1, v) :: rest else (k1, v1) :: alSet rest k v

abbrev RoleMap := List (Int × Role)

/-- Whether the dict holds key `k`. -/
def alHas {α : Type} (m : List (Int × α)) (k : Int) : Bool :=
  (alLookup m k).isSome

/-- `allied_ships_dict[idx]`: built by successive assignment, so the LAST
ship with a given id wins. -/
def lookupShip (ships : List Ship) (sid : Int) : Option Ship :=
  ships.foldl (fun acc s => if s.sid = sid then some s else acc) none

/-- Binary digits of `n`, most significant first (`"0"` for `0`), computed
with structural fuel so the kernel can evaluate it. -/
def natToBinAux : Nat → Nat → List Char
  | 0, _ => []
  | fuel + 1, n =>
    if n < 2 then [if n = 1 then '1' else '0']
    else natToBinAux fuel (n / 2) ++ [if n % 2 = 1 then '1' else '0']

def natToBin (n : Nat) : List Char :=
  natToBinAux (n + 1) n

/-- Python `format(c, '08b')`: binary digits left-padded with `'0'` to
width 8. -/
def pyFormat08b (c : Nat) : List Char :=
  let s := natToBin c
  List.replicate (8 - s.length) '0' ++ s

/-- Python negative string index: `s[-(k+1)]`. -/
def charAtNeg (s : List Char) (k : Nat) : Char :=
  s.reverse.getD k ' '

/-- The source's valuable-tile test on a packed cell:
`format(c,'08b')[-1] == '1' and format(c,'08b')[0:2] == '00'`. -/
def valuableCell (c : Nat) : Bool :=
  decide (charAtNeg (pyFormat08b c) 0 = '1') &&
    decide (List.take 2 (pyFormat08b c) = ['0', '0'])

/-- Map cell at non-negative integer coordinates `obs['map'][x][y]`
(out-of-range reads as 0; the source bounds-checks before reading). -/
def cellAtI (m : List (List Nat)) (x y : Int) : Nat :=
  (m.getD x.toNat []).getD y.toNat 0

/-- `is_asteroid`: the hazard bit read through the formatted string,
`format(point, '08b')[-2] == '1'`. -/
def is_asteroid (m : List (List Nat)) (x y : Int) : Bool :=
  decide (charAtNeg (pyFormat08b (cellAtI m x y)) 1 = '1')

/-- `shoot_enemy_if_in_range`: fire at an enemy that shares a row or column
within 8 tiles; `[]` is the "no target" sentinel (the Python empty list). -/
def shoot_enemy_if_in_range (enemy ship : Ship) : List Int :=
  if ship.y = enemy.y ∧ enemy.x > ship.x ∧ enemy.x - ship.x ≤ 8 then
    [ship.sid, 1, 0]
  else if ship.y = enemy.y ∧ enemy.x < ship.x ∧ ship.x - enemy.x ≤ 8 then
    [ship.sid, 1, 2]
  else if ship.x = enemy.x ∧ enemy.y > ship.y ∧ enemy.y - ship.y ≤ 8 then
    [ship.sid, 1, 1]
  else if ship.x = enemy.x ∧ enemy.y < ship.y ∧ ship.y - enemy.y ≤ 8 then
    [ship.sid, 1, 3]
  else []

/-- The shared behavior loop `for enemy in obs["enemy_ships"]: choice =
shoot_enemy_if_in_range(...); if choice: return choice`: first non-empty
result, else `[]`. -/
def firstShot (enemies : List Ship) (ship : Ship) : List Int :=
  match enemies with
  | [] => []
  | e :: rest =>
    let c := shoot_enemy_if_in_range e ship
    if c ≠ [] then c else firstShot rest ship

/-- `return_home_on_low_hp`: direct approach toward home, larger-offset
axis first, speed capped at 3. -/
def return_home_on_low_hp (ship : Ship) (home_x home_y : Int) : List Int :=
  let dx := ship.x - home_x
  let dy := ship.y - home_y
  if |dx| > |dy| then
    if dx > 0 then [ship.sid, 0, 2, min 3 |dx|]
    else [ship.sid, 0, 0, min 3 |dx|]
  else
    if dy > 0 then [ship.sid, 0, 3, min 3 |dy|]
    else [ship.sid, 0, 1, min 3 |dy|]

/-- One attempt of the bounded random walk: choose a direction (biased
toward home when past it on the relevant axis, else a random draw), then
validate the candidate cell. Returns the direction, the candidate cell,
whether it was accepted, and the remaining rng stream. -/
def mrAttempt (m : List (List Nat)) (ship : Ship) (home_x home_y : Int)
    (max_distance : Int) (rng : List Nat) : Int × Bool × List Nat :=
  let dr : Int × List Nat :=
    if home_x = 9 ∧ ship.x ≤ home_x then (0, rng)
    else if home_y = 9 ∧ ship.y ≤ home_y then (1, rng)
    else if home_x = 90 ∧ ship.x ≥ home_x then (2, rng)
    else if home_y = 90 ∧ ship.y ≥ home_y then (3, rng)
    else (((rng.headD 0) % 4 : Nat), rng.tail)
  let direction := dr.1
  let new_x := ship.x + (if direction = 0 then 1 else if direction = 2 then -1 else 0)
  let new_y := ship.y + (if direction = 1 then 1 else if direction = 3 then -1 else 0)
  let ok :=
    if ¬(0 ≤ new_x ∧ new_x < 100 ∧ 0 ≤ new_y ∧ new_y < 100) then false
    else if |new_x - home_x| + |new_y - home_y| > max_distance then false
    else if is_asteroid m new_x new_y then false
    else true
  (direction, ok, dr.2)

/-- The `for _ in range(10)` retry loop of `move_randomly_around_home`;
after exhausting attempts it falls back to a move in the last sampled
direction. -/
def mrLoop (m : List (List Nat)) (ship : Ship) (home_x home_y : Int)
    (max_distance : Int) : Nat → List Nat → Int → List Int × List Nat
  | 0, rng, lastDir => ([ship.sid, 0, lastDir, 1], rng)
  | fuel + 1, rng, _ =>
    let a := mrAttempt m ship home_x home_y max_distance rng
    if a.2.1 then ([ship.sid, 0, a.1, 1], a.2.2)
    else mrLoop m ship home_x home_y max_distance fuel a.2.2 a.1

/-- `move_randomly_around_home` with its default `max_distance=15`. -/
def move_randomly_around_home (m : List (List Nat)) (ship : Ship)
    (home_x home_y : Int) (rng : List Nat) : List Int × List Nat :=
  mrLoop m ship home_x home_y 15 10 rng 0

/-- `get_defense_action`: fire at the first aligned in-range enemy (no
cooldown gate in the source), else retreat home when hp ≤ 30, else random
walk around home. `none` models the `None`-anchor / missing-key crash. -/
def get_defense_action (obs : Obs) (idx : Int)
    (home_planet : Option (Int × Int × Int)) (rng : List Nat) :
    Option (List Int × List Nat) :=
  match lookupShip obs.allied_ships idx with
  | none => none
  | some ship =>
    let c := firstShot obs.enemy_ships ship
    if c ≠ [] then some (c, rng)
    else if ship.hp ≤ 30 then
      match home_planet with
      | none => none
      | some p => some (return_home_on_low_hp ship p.1 p.2.1, rng)
    else
      match home_planet with
      | none => none
      | some p => some (move_randomly_around_home obs.map ship p.1 p.2.1 rng)

/-- `get_offense_action`: unpacks the enemy anchor first (crashing on
`None`), fires only when `firing_cooldown == 0`, else moves toward the
enemy anchor, larger-offset axis first, speed 3 unless move cooldown. -/
def get_offense_action (obs : Obs) (idx : Int)
    (enemy_planet : Option (Int × Int)) : Option (List Int) :=
  match lookupShip obs.allied_ships idx with
  | none => none
  | some ship =>
    match enemy_planet with
    | none => none
    | some ep =>
      let shot := if ship.fireCd = 0 then firstShot obs.enemy_ships ship else []
      if shot ≠ [] then some shot
      else
        let dx := ep.1 - ship.x
        let dy := ep.2 - ship.y
        let direction : Int :=
          if |dx| > |dy| then (if dx > 0 then 0 else 2)
          else (if dy > 0 then 1 else 3)
        let speed : Int := if ship.moveCd = 0 then 3 else 1
        some [ship.sid, 0, direction, speed]

/-- Python `range(a, b)` as a list of naturals (empty when `b ≤ a`);
`a` already carries the `max(0, i-3)` clamp via truncated subtraction. -/
def pyRange (a b : Nat) : List Nat :=
  List.range' a (b - a)

/-- The cluster count of `get_explore_action`: valuable tiles in the
half-open window `[i-3, i+3) × [j-3, j+3)` clamped to `len(map)` and
`len(map[i])` respectively. -/
def onesCount (m : List (List Nat)) (i j : Nat) : Nat :=
  ((pyRange (i - 3) (min m.length (i + 3))).map (fun x =>
    ((pyRange (j - 3) (min (m.getD i []).length (j + 3))).filter (fun y =>
      valuableCell ((m.getD x []).getD y 0))).length)).sum

/-- Row-major list of all map indices `(i, j)`. -/
def scanCells (m : List (List Nat)) : List (Nat × Nat) :=
  (List.range m.length).flatMap (fun i =>
    (List.range (m.getD i []).length).map (fun j => (i, j)))

/-- The row-major scan of `get_explore_action`: the first valuable cell
with the strictly maximal cluster count (`ones_count > max_ones_count`),
`none` when no valuable cell exists (`found` stays false). -/
def bestTarget (m : List (List Nat)) : Option (Nat × Nat) :=
  ((scanCells m).foldl (fun acc p =>
    if valuableCell ((m.getD p.1 []).getD p.2 0) then
      match acc with
      | none => some (p.1, p.2, onesCount m p.1 p.2)
      | some b =>
        if onesCount m p.1 p.2 > b.2.2 then some (p.1, p.2, onesCount m p.1 p.2)
        else some b
    else acc) none).map (fun b => (b.1, b.2.1))

/-- `get_explore_action`: defensive fire when cooldown is zero, else move
toward the best valuable cluster (note the source's x/y flip: `dx = ship_x
- target_y`, `dy = ship_y - target_x`), else drift away from home with a
random direction choice. -/
def get_explore_action (obs : Obs) (idx : Int)
    (home_planet : Option (Int × Int × Int)) (rng : List Nat) :
    Option (List Int × List Nat) :=
  match lookupShip obs.allied_ships idx with
  | none => none
  | some ship =>
    let shot := if ship.fireCd = 0 then firstShot obs.enemy_ships ship else []
    if shot ≠ [] then some (shot, rng)
    else
      match bestTarget obs.map with
      | none =>
        match home_planet with
        | none => none
        | some p =>
          if p.1 = 9 then
            some ([ship.sid, 0, (((rng.headD 0) % 2 : Nat) : Int), 1], rng.tail)
          else
            some ([ship.sid, 0, ((2 + (rng.headD 0) % 2 : Nat) : Int), 1], rng.tail)
      | some t =>
        let dx := ship.x - (t.2 : Int)
        let dy := ship.y - (t.1 : Int)
        if |dx| > |dy| then
          if dx > 0 then some ([ship.sid, 0, 2, min 3 |dx|], rng)
          else some ([ship.sid, 0, 0, min 3 |dx|], rng)
        else
          if dy > 0 then some ([ship.sid, 0, 3, min 3 |dy|], rng)
          else some ([ship.sid, 0, 1, min 3 |dy|], rng)

/-- Initial role from `unit_id mod 3` (2 → defend, 0 → explore,
else → attack). -/
def seedRole (sid : Int) : Role :=
  if sid % 3 = 2 then Role.defend
  else if sid % 3 = 0 then Role.explore
  else Role.attack

/-- Scheduler step 1: give every allied ship with no role its seeded role. -/
def seedAll (mp : RoleMap) (ships : List Ship) : RoleMap :=
  ships.foldl (fun m s => if alHas m s.sid then m else alSet m s.sid (seedRole s.sid)) mp

/-- The `role_counts` tally: allied ships currently mapped to role `r`. -/
def countRole (mp : RoleMap) (ships : List Ship) (r : Role) : Nat :=
  (ships.filter (fun s => decide (alLookup mp s.sid = some r))).length

/-- Phase-dependent target distribution (`int(n*1.0)`, `int(n*0.5)` are
exact on the observed range and embedded as `n * 1`, `n / 2`). -/
def target_distribution (turn : Nat) (total_ships : Nat) : Role → Nat :=
  fun r =>
    if turn < 250 then
      match r with
      | Role.explore => max 1 (total_ships * 1)
      | Role.attack => max 0 (total_ships * 0)
      | Role.defend => max 0 (total_ships * 0)
    else if 250 ≤ turn ∧ turn < 500 then
      match r with
      | Role.explore => max 0 (total_ships * 0)
      | Role.attack => max 1 (total_ships * 1)
      | Role.defend => max 0 (total_ships * 0)
    else
      match r with
      | Role.explore => max 1 (total_ships / 2)
      | Role.attack => max 0 (total_ships * 0)
      | Role.defend => max 1 (total_ships / 2)

/-- Iteration order of the `role_counts` / `target_distribution` dicts. -/
def roleOrder : List Role :=
  [Role.explore, Role.attack, Role.defend]

/-- The donor search of the rebalance step: the first allied ship holding
`excess` that is not blocked by the health guard (`role == ATTACK and
ship_health < 30` continues the scan). -/
def findDonor (mp : RoleMap) (ships : List Ship) (role excess : Role) : Option Ship :=
  ships.find? (fun s =>
    decide (alLookup mp s.sid = some excess) &&
      !(decide (role = Role.attack) && decide (s.hp < 30)))

/-- The `role_counts` update of a reassignment: decrement the donor role,
increment the deficient role. -/
def bumpCounts (counts : Role → Nat) (ex role : Role) : Role → Nat :=
  fun r =>
    if r = ex then counts ex - 1
    else if r = role then counts role + 1
    else counts r

/-- One pass of the rebalance `while` body for deficient `role`: for each
excess role in dict order, pull at most one eligible donor, stopping early
once the target is met. The source's trailing `if current_count <
target_count: break` makes this single pass the whole loop. -/
def passPull (ships : List Ship) (target : Role → Nat) (role : Role) :
    RoleMap × (Role → Nat) → List Role → RoleMap × (Role → Nat)
  | st, [] => st
  | st, ex :: rest =>
    if ex ≠ role ∧ st.2 ex > target ex then
      match findDonor st.1 ships role ex with
      | none => passPull ships target role st rest
      | some s =>
        if bumpCounts st.2 ex role role ≥ target role then
          (alSet st.1 s.sid role, bumpCounts st.2 ex role)
        else passPull ships target role (alSet st.1 s.sid role, bumpCounts st.2 ex role) rest
    else passPull ships target role st rest

/-- Scheduler step 4: drop role-map entries whose id is not in the tick's
allied ship list. -/
def evictStale (mp : RoleMap) (ships : List Ship) : RoleMap :=
  mp.filter (fun kv => ships.any (fun s => decide (s.sid = kv.1)))

/-- `Agent.scheduler`: seed, compute targets from the turn phase, run the
(single-pass) rebalance for each role in dict order, then evict stale ids. -/
def scheduler (mp : RoleMap) (turn : Nat) (ships : List Ship) : RoleMap :=
  let mp1 := seedAll mp ships
  let counts : Role → Nat := fun r => countRole mp1 ships r
  let target := target_distribution turn ships.length
  let st := roleOrder.foldl (fun (st : RoleMap × (Role → Nat)) role =>
    if st.2 role < target role then passPull ships target role st roleOrder
    else st) (mp1, counts)
  evictStale st.1 ships

structure AgentState where
  home_planet : Option (Int × Int × Int)
  enemy_planet : Option (Int × Int)
  ship_roles : RoleMap
  turn_counter : Nat
  last_known_enemy_positions : List (Int × (Int × Int × Nat))
deriving Repr

structure ActionBatch where
  ships_actions : List (List Int)
  construction : Int
deriving DecidableEq, Repr

/-- The enemy-memory update: `last_known_enemy_positions[id] = (x, y, turn)`
for each visible enemy. -/
def updateEnemyMem (mem : List (Int × (Int × Int × Nat))) (enemies : List Ship)
    (turn : Nat) : List (Int × (Int × Int × Nat)) :=
  enemies.foldl (fun mm e => alSet mm e.sid (e.x, e.y, turn)) mem

/-- The per-ship dispatch loop of `get_action`: each ship's role (assigned
by the scheduler) selects the behavior; the rng stream threads through.
`none` models any crash (missing role key or `None` anchor dereference). -/
def dispatchAll (obs : Obs) (home : Option (Int × Int × Int))
    (ep : Option (Int × Int)) (roles : RoleMap) :
    List Ship → List Nat → Option (List (List Int) × List Nat)
  | [], rng => some ([], rng)
  | s :: rest, rng =>
    match alLookup roles s.sid with
    | none => none
    | some role =>
      let res : Option (List Int × List Nat) :=
        match role with
        | Role.defend => get_defense_action obs s.sid home rng
        | Role.explore => get_explore_action obs s.sid home rng
        | Role.attack => (get_offense_action obs s.sid ep).map (fun a => (a, rng))
      match res with
      | none => none
      | some ar =>
        match dispatchAll obs home ep roles rest ar.2 with
        | none => none
        | some tl => some (ar.1 :: tl.1, tl.2)

/-- `Agent.get_action`: increment the turn counter, set the anchors once
from the first non-empty `planets_occupation`, update enemy memory, run
the scheduler, dispatch every allied ship, and return the batch with
`construction = 10`. -/
def get_action (st : AgentState) (obs : Obs) (rng : List Nat) :
    Option (AgentState × ActionBatch × List Nat) :=
  let turn := st.turn_counter + 1
  let anchors : Option (Int × Int × Int) × Option (Int × Int) :=
    match st.home_planet, obs.planets_occupation with
    | none, p :: _ => (some p, some (if p.1 = 9 then ((90 : Int), (90 : Int)) else (9, 9)))
    | h, _ => (h, st.enemy_planet)
  let mem := updateEnemyMem st.last_known_enemy_positions obs.enemy_ships turn
  let roles := scheduler st.ship_roles turn obs.allied_ships
  match dispatchAll obs anchors.1 anchors.2 roles obs.allied_ships rng with
  | none => none
  | some ar =>
    some ({ home_planet := anchors.1, enemy_planet := anchors.2,
            ship_roles := roles, turn_counter := turn,
            last_known_enemy_positions := mem },
          { ships_actions := ar.1, construction := 10 }, ar.2)

/-- Modelled from the spec: the direct bitwise hazard test the spec calls
for in place of the formatted-string inspection. -/
def hazardBitwise (c : Nat) : Bool :=
  decide ((c >>> 1) % 2 = 1)

/-- Modelled from the spec: the direct bitwise valuable-tile test (low bit
set, two highest bits of the 8-bit field clear). -/
def valuableBitwise (c : Nat) : Bool :=
  decide (c % 2 = 1) && decide (c < 64)

/-- The formatted-string hazard test on a bare cell value, as in
`is_asteroid`. -/
def hazardStr (c : Nat) : Bool :=
  decide (charAtNeg (pyFormat08b c) 1 = '1')

/-! Concrete scenario fixtures used by counterexamples and witnesses. -/

/-- A defender with firing cooldown 5 and an adjacent enemy on its row. -/
def obsDefendCooldown : Obs :=
  { map := [[0]], allied_ships := [⟨0, 5, 5, 100, 5, 0⟩],
    enemy_ships := [⟨1, 6, 5, 100, 0, 0⟩],
    planets_occupation := [(9, 9, -1)], resources := 0 }

/-- Six fresh ships (ids 0–5, full health) on the first turn. -/
def sixFreshShips : List Ship :=
  [⟨0, 10, 10, 100, 0, 0⟩, ⟨1, 12, 10, 100, 0, 0⟩, ⟨2, 14, 10, 100, 0, 0⟩,
   ⟨3, 16, 10, 100, 0, 0⟩, ⟨4, 18, 10, 100, 0, 0⟩, ⟨5, 20, 10, 100, 0, 0⟩]

/-- A lone ship, no enemies, a map whose only cell is not valuable. -/
def obsLoneShip : Obs :=
  { map := [[0]], allied_ships := [⟨0, 5, 5, 100, 0, 0⟩],
    enemy_ships := [], planets_occupation := [], resources := 0 }

/-- A lone ship at (4,4) with firing cooldown 5, no enemies, and a single
valuable map cell at (0,0), giving equal x/y offsets to every target. -/
def obsTieBreak : Obs :=
  { map := [[1]], allied_ships := [⟨7, 4, 4, 20, 5, 0⟩],
    enemy_ships := [], planets_occupation := [], resources := 0 }

/-- An empty first-tick observation: no ships, no planets. -/
def obsEmptyTick : Obs :=
  { map := [], allied_ships := [], enemy_ships := [],
    planets_occupation := [], resources := 0 }

/-- Claim C10: every successfully returned action batch carries
`construction = 10`, whatever the observation and agent state. -/
theorem construction_always_ten (st : AgentState) (obs : Obs) (rng : List Nat)
    (st2 : AgentState) (batch : ActionBatch) (rng2 : List Nat)
    (h : get_action st obs rng = some (st2, batch, rng2)) :
    batch.construction = 10 := by
  simp only [get_action] at h
  split at h
  · exact Option.noConfusion h
  · simp only [Option.some.injEq, Prod.mk.injEq] at h
    obtain ⟨-, h2, -⟩ := h
    rw [← h2]

/-- Witness for C10 at the empty first tick. -/
theorem construction_always_ten_witness :
    ({ ships_actions := [], construction := 10 } : ActionBatch).construction = 10 :=
  construction_always_ten ⟨none, none, [], 0, []⟩ obsEmptyTick []
    ⟨none, none, [], 1, []⟩ ⟨[], 10⟩ [] rfl

/-- Claim C5: the phase targets are Explore = max 1 n for turn < 250,
Attack = max 1 n for 250 ≤ turn < 500, and Explore = Defend =
max 1 (n / 2) for turn ≥ 500, all other targets zero, with `turn` the
post-increment counter (the embedding's `get_action` passes
`turn_counter + 1` to the scheduler). -/
theorem target_distribution_phases (turn n : Nat) :
    (target_distribution turn n Role.explore,
     target_distribution turn n Role.attack,
     target_distribution turn n Role.defend) =
      if turn < 250 then (max 1 n, 0, 0)
      else if turn < 500 then (0, max 1 n, 0)
      else (max 1 (n / 2), 0, max 1 (n / 2)) := by
  unfold target_distribution
  by_cases h1 : turn < 250 <;> by_cases h2 : turn < 500 <;>
    simp [h1, h2, Nat.mul_one, Nat.mul_zero]

set_option maxRecDepth 20000 in
/-- Claim C8: on 8-bit cell values the formatted-string hazard test agrees
with `(c >>> 1) % 2 = 1`, and the formatted-string valuable-tile test
agrees with `c % 2 = 1 ∧ c < 64`. -/
theorem bit_tests_equiv (c : Nat) (h : c < 256) :
    hazardStr c = hazardBitwise c ∧ valuableCell c = valuableBitwise c := by
  revert c
  decide

/-- Witness for C8 at `c = 3`. -/
theorem bit_tests_equiv_witness :
    hazardStr 3 = hazardBitwise 3 ∧ valuableCell 3 = valuableBitwise 3 :=
  bit_tests_equiv 3 (by decide)

/-- Claim C3: at turn 1 with ships 0, 1, 2 the scheduler seeds
{0 ↦ Explore, 1 ↦ Attack, 2 ↦ Defend} and rebalancing under the phase-1
target leaves every ship Explore, whatever the positions, health values
and cooldowns. -/
theorem turn_one_three_ships_all_explore
    (x0 y0 p0 f0 m0 x1 y1 p1 f1 m1 x2 y2 p2 f2 m2 : Int) :
    seedAll [] [⟨0, x0, y0, p0, f0, m0⟩, ⟨1, x1, y1, p1, f1, m1⟩,
        ⟨2, x2, y2, p2, f2, m2⟩] =
      [(0, Role.explore), (1, Role.attack), (2, Role.defend)] ∧
    scheduler [] 1 [⟨0, x0, y0, p0, f0, m0⟩, ⟨1, x1, y1, p1, f1, m1⟩,
        ⟨2, x2, y2, p2, f2, m2⟩] =
      [(0, Role.explore), (1, Role.explore), (2, Role.explore)] :=
  ⟨rfl, rfl⟩

/-- Claim C2 (failing run): on the first turn with six fresh full-health
ships the rebalance makes a single pass, pulling one ship from Attack and
one from Defend, and stops with Explore at 4 of its target 6 — a deficit
of 2 — while ship 4 still holds Attack (count 1 > target 0) and ship 5
still holds Defend, i.e. eligible donors remain. -/
theorem rebalance_single_pass_shortfall :
    scheduler [] 1 sixFreshShips =
      [(0, Role.explore), (1, Role.explore), (2, Role.explore),
       (3, Role.explore), (4, Role.attack), (5, Role.defend)] ∧
    countRole (scheduler [] 1 sixFreshShips) sixFreshShips Role.explore = 4 ∧
    target_distribution 1 6 Role.explore = 6 ∧
    alLookup (scheduler [] 1 sixFreshShips) 4 = some Role.attack ∧
    target_distribution 1 6 Role.attack = 0 ∧
    alLookup (scheduler [] 1 sixFreshShips) 5 = some Role.defend ∧
    target_distribution 1 6 Role.defend = 0 :=
  ⟨rfl, rfl, rfl, rfl, rfl, rfl, rfl⟩

/-- Counterexample to C1 as stated: the Defend behavior returns a fire
action (`[0, 1, 0]`) although the ship's firing cooldown is 5, not 0 —
`get_defense_action` never consults the cooldown. -/
theorem defend_fires_despite_cooldown :
    get_defense_action obsDefendCooldown 0 (some (9, 9, -1)) [] =
      some ([0, 1, 0], []) ∧
    (lookupShip obsDefendCooldown.allied_ships 0).map Ship.fireCd = some 5 :=
  ⟨rfl, rfl⟩

/-- Claim C6: the alignment-range test fires iff the two positions share
exactly one coordinate and the absolute offset on the other axis lies in
[1, 8], with direction 0 for increasing x, 1 for increasing y, 2 for
decreasing x, 3 for decreasing y; otherwise (d = 0, d > 8, or both
coordinates differ) it returns the empty no-target result. -/
theorem alignment_range_spec (ship enemy : Ship) :
    shoot_enemy_if_in_range enemy ship =
      (if ship.y = enemy.y ∧ ship.x ≠ enemy.x ∧
          1 ≤ |enemy.x - ship.x| ∧ |enemy.x - ship.x| ≤ 8 then
         [ship.sid, 1, if enemy.x > ship.x then 0 else 2]
       else if ship.x = enemy.x ∧ ship.y ≠ enemy.y ∧
          1 ≤ |enemy.y - ship.y| ∧ |enemy.y - ship.y| ≤ 8 then
         [ship.sid, 1, if enemy.y > ship.y then 1 else 3]
       else []) := by
  rcases abs_cases (enemy.x - ship.x) with ⟨e1, e2⟩ | ⟨e1, e2⟩ <;>
    rcases abs_cases (enemy.y - ship.y) with ⟨f1, f2⟩ | ⟨f1, f2⟩ <;>
      unfold shoot_enemy_if_in_range <;>
        rw [e1, f1] <;>
          split_ifs <;> first | rfl | omega

/-- Claim C7: in each movement-toward-target computation (low-health
return home, Attack move toward the enemy anchor, Explore move toward the
chosen valuable cell), an `abs dx = abs dy` tie falls to the y-axis
branch: the returned move's direction (index 2 of the action) is 1 (down)
or 3 (up), never an x-axis direction. -/
theorem tie_goes_to_y_axis (obs : Obs) (idx : Int) (ship : Ship)
    (home_x home_y ex ey : Int) (hm : Option (Int × Int × Int))
    (tx ty : Nat) (a b : List Int) (rng rng2 : List Nat) :
    (|ship.x - home_x| = |ship.y - home_y| →
      (return_home_on_low_hp ship home_x home_y).get? 2 = some 1 ∨
      (return_home_on_low_hp ship home_x home_y).get? 2 = some 3) ∧
    (lookupShip obs.allied_ships idx = some ship →
      (ship.fireCd = 0 → firstShot obs.enemy_ships ship = []) →
      |ex - ship.x| = |ey - ship.y| →
      get_offense_action obs idx (some (ex, ey)) = some a →
      a.get? 2 = some 1 ∨ a.get? 2 = some 3) ∧
    (lookupShip obs.allied_ships idx = some ship →
      (ship.fireCd = 0 → firstShot obs.enemy_ships ship = []) →
      bestTarget obs.map = some (tx, ty) →
      |ship.x - (ty : Int)| = |ship.y - (tx : Int)| →
      get_explore_action obs idx hm rng = some (b, rng2) →
      b.get? 2 = some 1 ∨ b.get? 2 = some 3) := by
  refine ⟨?_, ?_, ?_⟩
  · intro htie
    simp only [return_home_on_low_hp]
    rw [htie]
    simp only [lt_irrefl, if_false]
    by_cases hdy : ship.y - home_y > 0 <;> simp [hdy]
  · intro hs hcd htie hres
    simp only [get_offense_action] at hres
    rw [hs] at hres
    have hshot : (if ship.fireCd = 0 then firstShot obs.enemy_ships ship else []) = [] := by
      by_cases hc : ship.fireCd = 0 <;> simp [hc, hcd]
    simp only [hshot] at hres
    rw [htie] at hres
    simp only [lt_irrefl, if_false, ne_eq, not_true_eq_false, if_neg] at hres
    by_cases hdy : ey - ship.y > 0 <;>
      simp only [hdy, if_true, if_false, Option.some.injEq] at hres <;>
        rw [← hres] <;> simp
  · intro hs hcd hbt htie hres
    simp only [get_explore_action] at hres
    rw [hs] at hres
    have hshot : (if ship.fireCd = 0 then firstShot obs.enemy_ships ship else []) = [] := by
      by_cases hc : ship.fireCd = 0 <;> simp [hc, hcd]
    simp only [hshot] at hres
    rw [hbt] at hres
    simp only [ne_eq, not_true_eq_false, if_neg] at hres
    rw [htie] at hres
    simp only [lt_irrefl, if_false] at hres
    by_cases hdy : ship.y - (tx : Int) > 0 <;>
      simp only [hdy, if_true, if_false, Option.some.injEq, Prod.mk.injEq] at hres <;>
        [rw [← hres.1]; rw [← hres.1]] <;> simp

/-- Witness for C7: ship (4,4) with home (9,9), enemy anchor (0,0) and a
single valuable cell at (0,0) — every offset pair ties, and every returned
move is on the y axis. -/
theorem tie_goes_to_y_axis_witness :
    ((return_home_on_low_hp ⟨7, 4, 4, 20, 5, 0⟩ 9 9).get? 2 = some 1 ∨
     (return_home_on_low_hp ⟨7, 4, 4, 20, 5, 0⟩ 9 9).get? 2 = some 3) ∧
    (([7, 0, 3, 3] : List Int).get? 2 = some 1 ∨
     ([7, 0, 3, 3] : List Int).get? 2 = some 3) ∧
    (([7, 0, 3, 3] : List Int).get? 2 = some 1 ∨
     ([7, 0, 3, 3] : List Int).get? 2 = some 3) := by
  have T := tie_goes_to_y_axis obsTieBreak 7 ⟨7, 4, 4, 20, 5, 0⟩ 9 9 0 0
    (some (9, 9, -1)) 0 0 [7, 0, 3, 3] [7, 0, 3, 3] [] []
  exact ⟨T.1 (by decide),
         T.2.1 rfl (fun _ => rfl) (by decide) (by decide),
         T.2.2 rfl (fun _ => rfl) (by decide) (by decide) (by decide)⟩

theorem firstShot_cons (e : Ship) (rest : List Ship) (s : Ship) :
    firstShot (e :: rest) s =
      if shoot_enemy_if_in_range e s ≠ [] then shoot_enemy_if_in_range e s
      else firstShot rest s := rfl

theorem shoot_fire_shape (e s : Ship) (h : shoot_enemy_if_in_range e s ≠ []) :
    (shoot_enemy_if_in_range e s).get? 1 = some 1 := by
  unfold shoot_enemy_if_in_range at *
  split_ifs at * <;> simp_all

theorem firstShot_get1 (es : List Ship) (s : Ship) (h : firstShot es s ≠ []) :
    (firstShot es s).get? 1 = some 1 := by
  induction es with
  | nil => exact absurd rfl h
  | cons e rest ih =>
    rw [firstShot_cons] at h ⊢
    by_cases hc : shoot_enemy_if_in_range e s ≠ []
    · rw [if_pos hc]
      exact shoot_fire_shape e s hc
    · rw [if_neg hc] at h ⊢
      exact ih h

theorem firstShot_ne_nil_iff (es : List Ship) (s : Ship) :
    firstShot es s ≠ [] ↔ ∃ e ∈ es, shoot_enemy_if_in_range e s ≠ [] := by
  induction es with
  | nil => simp [firstShot]
  | cons e rest ih =>
    rw [firstShot_cons]
    by_cases hc : shoot_enemy_if_in_range e s ≠ []
    · rw [if_pos hc]
      simp only [List.mem_cons]
      exact ⟨fun _ => ⟨e, Or.inl rfl, hc⟩, fun _ => hc⟩
    · rw [if_neg hc, ih]
      simp only [List.mem_cons]
      constructor
      · rintro ⟨f, hf, hne⟩
        exact ⟨f, Or.inr hf, hne⟩
      · rintro ⟨f, hf | hf, hne⟩
        · rw [hf] at hne
          exact absurd hne hc
        · exact ⟨f, hf, hne⟩

theorem mrLoop_succ (m : List (List Nat)) (s : Ship) (hx hy md : Int)
    (n : Nat) (rng : List Nat) (d : Int) :
    mrLoop m s hx hy md (n + 1) rng d =
      if (mrAttempt m s hx hy md rng).2.1 then
        ([s.sid, 0, (mrAttempt m s hx hy md rng).1, 1], (mrAttempt m s hx hy md rng).2.2)
      else mrLoop m s hx hy md n (mrAttempt m s hx hy md rng).2.2
        (mrAttempt m s hx hy md rng).1 := rfl

theorem mrLoop_move_shape (m : List (List Nat)) (s : Ship) (hx hy md : Int) :
    ∀ (fuel : Nat) (rng : List Nat) (d : Int),
      ((mrLoop m s hx hy md fuel rng d).1).get? 1 = some 0 := by
  intro fuel
  induction fuel with
  | zero => intro rng d; rfl
  | succ n ih =>
    intro rng d
    rw [mrLoop_succ]
    by_cases hok : (mrAttempt m s hx hy md rng).2.1 = true
    · rw [if_pos hok]
      rfl
    · rw [if_neg hok]
      exact ih _ _

theorem return_home_move_shape (s : Ship) (hx hy : Int) :
    (return_home_on_low_hp s hx hy).get? 1 = some 0 := by
  simp only [return_home_on_low_hp]
  split_ifs <;> rfl

/-- Claim C1 (amended): the Defend behavior returns a fire action exactly
when some enemy is in alignment-range (radius 8), with no cooldown gate;
when no enemy is in range it falls through to the low-health retreat
(hp ≤ 30) and otherwise to the random walk around home. -/
theorem defend_priority_chain (obs : Obs) (idx : Int) (p : Int × Int × Int)
    (rng rng2 : List Nat) (ship : Ship) (a : List Int)
    (hs : lookupShip obs.allied_ships idx = some ship)
    (hres : get_defense_action obs idx (some p) rng = some (a, rng2)) :
    (a.get? 1 = some 1 ↔ ∃ e ∈ obs.enemy_ships, shoot_enemy_if_in_range e ship ≠ []) ∧
    ((∀ e ∈ obs.enemy_ships, shoot_enemy_if_in_range e ship = []) →
      a = (if ship.hp ≤ 30 then return_home_on_low_hp ship p.1 p.2.1
           else (move_randomly_around_home obs.map ship p.1 p.2.1 rng).1)) := by
  simp only [get_defense_action] at hres
  rw [hs] at hres
  dsimp only at hres
  by_cases hc : firstShot obs.enemy_ships ship ≠ []
  · rw [if_pos hc, Option.some.injEq, Prod.mk.injEq] at hres
    obtain ⟨ha, -⟩ := hres
    constructor
    · rw [← ha]
      simp only [firstShot_get1 obs.enemy_ships ship hc, true_iff]
      exact (firstShot_ne_nil_iff obs.enemy_ships ship).mp hc
    · intro hall
      exfalso
      obtain ⟨e, he, hne⟩ := (firstShot_ne_nil_iff obs.enemy_ships ship).mp hc
      exact hne (hall e he)
  · have hnone : ¬∃ e ∈ obs.enemy_ships, shoot_enemy_if_in_range e ship ≠ [] := by
      rw [← firstShot_ne_nil_iff]
      exact hc
    rw [if_neg hc] at hres
    by_cases hhp : ship.hp ≤ 30
    · rw [if_pos hhp] at hres
      rw [Option.some.injEq, Prod.mk.injEq] at hres
      obtain ⟨ha, -⟩ := hres
      refine ⟨?_, fun _ => by rw [if_pos hhp, ← ha]⟩
      rw [← ha, return_home_move_shape]
      simp [hnone]
    · rw [if_neg hhp] at hres
      rw [Option.some.injEq] at hres
      have ha : (move_randomly_around_home obs.map ship p.1 p.2.1 rng).1 = a :=
        congrArg Prod.fst hres
      refine ⟨?_, fun _ => by rw [if_neg hhp, ← ha]⟩
      rw [← ha]
      unfold move_randomly_around_home
      rw [mrLoop_move_shape]
      simp [hnone]

/-- Witness for C1 at `obsDefendCooldown`: the defender (cooldown 5) fires
at the adjacent enemy, and the fall-through clause holds vacuously. -/
theorem defend_priority_chain_witness :
    (([0, 1, 0] : List Int).get? 1 = some 1 ↔
      ∃ e ∈ obsDefendCooldown.enemy_ships,
        shoot_enemy_if_in_range e ⟨0, 5, 5, 100, 5, 0⟩ ≠ []) ∧
    ((∀ e ∈ obsDefendCooldown.enemy_ships,
        shoot_enemy_if_in_range e ⟨0, 5, 5, 100, 5, 0⟩ = []) →
      ([0, 1, 0] : List Int) =
        (if (⟨0, 5, 5, 100, 5, 0⟩ : Ship).hp ≤ 30 then
           return_home_on_low_hp ⟨0, 5, 5, 100, 5, 0⟩ 9 9
         else (move_randomly_around_home obsDefendCooldown.map
           ⟨0, 5, 5, 100, 5, 0⟩ 9 9 []).1)) :=
  defend_priority_chain obsDefendCooldown 0 (9, 9, -1) [] [] ⟨0, 5, 5, 100, 5, 0⟩
    [0, 1, 0] rfl rfl

/-- Claim C9: with both anchors still unset (no non-empty
planets_occupation seen), dispatching a ship with the Attack role
dereferences the `None` enemy anchor unconditionally, and the home-anchor
branches of Defend (both the low-health retreat and the random walk) and
of Explore (the no-valuable-cell drift) dereference the `None` home
anchor; each crash is the embedded `none` result. -/
theorem unset_anchor_crashes (obs : Obs) (idx : Int) (ship : Ship)
    (rng : List Nat) :
    get_offense_action obs idx none = none ∧
    (lookupShip obs.allied_ships idx = some ship →
      firstShot obs.enemy_ships ship = [] →
      get_defense_action obs idx none rng = none) ∧
    (lookupShip obs.allied_ships idx = some ship →
      (ship.fireCd = 0 → firstShot obs.enemy_ships ship = []) →
      bestTarget obs.map = none →
      get_explore_action obs idx none rng = none) := by
  refine ⟨?_, ?_, ?_⟩
  · simp only [get_offense_action]
    cases lookupShip obs.allied_ships idx <;> rfl
  · intro hs hshot
    simp only [get_defense_action]
    rw [hs]
    dsimp only
    rw [if_neg (fun hne => hne hshot)]
    by_cases hhp : ship.hp ≤ 30
    · rw [if_pos hhp]
    · rw [if_neg hhp]
  · intro hs hcd hbt
    simp only [get_explore_action]
    rw [hs]
    dsimp only
    have hshot : (if ship.fireCd = 0 then firstShot obs.enemy_ships ship else []) = [] := by
      by_cases hc : ship.fireCd = 0 <;> simp [hc, hcd]
    rw [hshot]
    rw [if_neg (fun hne => hne rfl), hbt]

/-- Witness for C9: a lone ship, no enemies, no valuable cells — all three
behaviors crash on the unset anchors. -/
theorem unset_anchor_crashes_witness :
    get_offense_action obsLoneShip 0 none = none ∧
    get_defense_action obsLoneShip 0 none [] = none ∧
    get_explore_action obsLoneShip 0 none [] = none := by
  have T := unset_anchor_crashes obsLoneShip 0 ⟨0, 5, 5, 100, 0, 0⟩ []
  exact ⟨T.1, T.2.1 rfl rfl, T.2.2 rfl (fun _ => rfl) (by decide)⟩

theorem alLookup_alSet {α : Type} (m : List (Int × α)) (k : Int) (v : α)
    (k2 : Int) :
    alLookup (alSet m k v) k2 = if k = k2 then some v else alLookup m k2 := by
  induction m with
  | nil =>
    simp only [alSet, alLookup]
  | cons kv rest ih =>
    obtain ⟨k1, v1⟩ := kv
    simp only [alSet, alLookup]
    by_cases h1 : k1 = k
    · subst h1
      by_cases h2 : k1 = k2 <;> simp [alLookup, h2]
    · by_cases h2 : k1 = k2
      · subst h2
        have hkk : ¬k = k1 := fun h => h1 h.symm
        simp [alLookup, h1, hkk]
      · simp [alLookup, h1, h2, ih]

theorem alHas_alSet {α : Type} (m : List (Int × α)) (k : Int) (v : α)
    (k2 : Int) :
    alHas (alSet m k v) k2 = (decide (k = k2) || alHas m k2) := by
  simp only [alHas, alLookup_alSet]
  by_cases h : k = k2 <;> simp [h]

theorem alHas_alSet_existing {α : Type} (m : List (Int × α)) (k : Int) (v : α)
    (k2 : Int) (hk : alHas m k = true) :
    alHas (alSet m k v) k2 = alHas m k2 := by
  rw [alHas_alSet]
  by_cases h : k = k2
  · subst h
    simp [hk]
  · simp [h]

theorem seedAll_has (ships : List Ship) :
    ∀ (mp : RoleMap) (sid : Int),
      alHas (seedAll mp ships) sid =
        (alHas mp sid || ships.any (fun s => decide (s.sid = sid))) := by
  induction ships with
  | nil => intro mp sid; simp [seedAll]
  | cons s rest ih =>
    intro mp sid
    have hstep : seedAll mp (s :: rest) =
        seedAll (if alHas mp s.sid then mp else alSet mp s.sid (seedRole s.sid)) rest := rfl
    rw [hstep, ih]
    by_cases hh : alHas mp s.sid = true
    · rw [if_pos hh]
      by_cases he : s.sid = sid
      · subst he
        simp [hh]
      · simp [he]
    · rw [if_neg hh]
      rw [alHas_alSet]
      simp only [List.any_cons, Bool.or_assoc]
      cases hx : alHas mp sid <;> cases hy : decide (s.sid = sid) <;> simp

theorem passPull_has (ships : List Ship) (target : Role → Nat) (role : Role) :
    ∀ (exs : List Role) (mp : RoleMap) (counts : Role → Nat) (sid : Int),
      alHas (passPull ships target role (mp, counts) exs).1 sid = alHas mp sid := by
  intro exs
  induction exs with
  | nil => intro mp counts sid; rfl
  | cons ex rest ih =>
    intro mp counts sid
    simp only [passPull]
    by_cases hcond : ex ≠ role ∧ counts ex > target ex
    · rw [if_pos hcond]
      cases hf : findDonor mp ships role ex with
      | none => exact ih mp counts sid
      | some s =>
        have hpred := List.find?_some hf
        simp only [Bool.and_eq_true, decide_eq_true_eq] at hpred
        have hhas : alHas mp s.sid = true := by
          simp [alHas, hpred.1]
        dsimp only
        by_cases hge : bumpCounts counts ex role role ≥ target role
        · rw [if_pos hge]
          exact alHas_alSet_existing mp s.sid role sid hhas
        · rw [if_neg hge]
          rw [ih]
          exact alHas_alSet_existing mp s.sid role sid hhas
    · rw [if_neg hcond]
      exact ih mp counts sid

theorem rebalanceFold_has (ships : List Ship) (target : Role → Nat) :
    ∀ (roles : List Role) (st : RoleMap × (Role → Nat)) (sid : Int),
      alHas (roles.foldl (fun (st : RoleMap × (Role → Nat)) role =>
        if st.2 role < target role then passPull ships target role st roleOrder
        else st) st).1 sid = alHas st.1 sid := by
  intro roles
  induction roles with
  | nil => intro st sid; rfl
  | cons r rest ih =>
    intro st sid
    simp only [List.foldl_cons]
    rw [ih]
    by_cases hlt : st.2 r < target r
    · rw [if_pos hlt]
      exact passPull_has ships target r roleOrder st.1 st.2 sid
    · rw [if_neg hlt]

theorem evictStale_lookup (ships : List Ship) :
    ∀ (mp : RoleMap) (sid : Int),
      alLookup (evictStale mp ships) sid =
        if ships.any (fun s => decide (s.sid = sid)) then alLookup mp sid
        else none := by
  intro mp
  induction mp with
  | nil =>
    intro sid
    simp only [evictStale, List.filter_nil, alLookup]
    by_cases h : ships.any (fun s => decide (s.sid = sid)) = true <;> simp [h]
  | cons kv rest ih =>
    intro sid
    obtain ⟨k, v⟩ := kv
    simp only [evictStale] at *
    by_cases hkept : (ships.any fun s => decide (s.sid = k)) = true
    · by_cases hk : k = sid
      · subst hk
        simp [List.filter_cons, hkept, alLookup]
      · simp [List.filter_cons, hkept, alLookup, hk, ih]
    · by_cases hk : k = sid
      · subst hk
        have hkf : (ships.any fun s => decide (s.sid = k)) = false := by
          simpa using hkept
        simp [List.filter_cons, hkept, ih, hkf]
      · simp [List.filter_cons, hkept, alLookup, hk, ih]

/-- Claim C4: after every scheduler invocation the key set of the role map
is exactly the id set of the tick's allied ship list — fresh ids are
seeded, rebalancing never adds or removes keys, and eviction removes
exactly the stale ids. -/
theorem role_map_keys_track_ships (mp : RoleMap) (turn : Nat)
    (ships : List Ship) (sid : Int) :
    alHas (scheduler mp turn ships) sid =
      ships.any (fun s => decide (s.sid = sid)) := by
  simp only [scheduler]
  simp only [alHas, evictStale_lookup ships]
  by_cases hany : (ships.any fun s => decide (s.sid = sid)) = true
  · simp only [hany, if_true]
    have h2 := rebalanceFold_has ships (target_distribution turn ships.length)
      roleOrder (seedAll mp ships, fun r => countRole (seedAll mp ships) ships r) sid
    simp only [alHas] at h2
    rw [h2]
    have h3 := seedAll_has ships mp sid
    simp only [alHas] at h3
    rw [h3, hany, Bool.or_true]
  · simp only [Bool.not_eq_true] at hany
    simp [hany]
